import Mathlib

/-!
Shallow embedding of `py_nifcloud/nifcloud_client.py` (class `NifCloudClient`)
and proofs about its request pipeline: endpoint construction, GET query
rendering, signature-version resolution, signer dispatch, method dispatch,
and credential-source precedence.

Python dictionaries are embedded as association lists; Python values that can
be either strings or integers are embedded as `PyVal`; Python code that could
`raise` is embedded in `Except PyError` so that an exception would be visible
as `Except.error`.
-/

namespace PyNifcloud

/-- A Python value occurring as a query/body parameter: a string or an
integer.  `pyStr` below mirrors the `str(value)` coercion. -/
inductive PyVal where
  | str (s : String)
  | int (n : Int)
deriving DecidableEq, Repr

/-- Python `str(value)` for the embedded value types. -/
def pyStr : PyVal → String
  | .str s => s
  | .int n => toString n

/-- Lookup in an association list with Python `dict` semantics:
`dict(pairs)` keeps the last binding of a duplicated key, so the lookup
scans from the right. -/
def dlookup (l : List (String × α)) (k : String) : Option α :=
  l.reverse.lookup k

/-- Python `d[k]` on an embedded dict, with a junk default; it is only ever
used where the key is known to be present. -/
def dget (l : List (String × PyVal)) (k : String) : PyVal :=
  (dlookup l k).getD (PyVal.str "")

/-- Python `'&'.join(l)`. -/
def joinAmp : List String → String
  | [] => ""
  | [x] => x
  | x :: y :: xs => x ++ ("&" ++ joinAmp (y :: xs))

/-- Python `s.split(sep)` for a one-character separator, over character
lists; `"".split(sep)` gives `[""]` and adjacent separators give empty
fields, as in Python. -/
def splitOnChar (sep : Char) : List Char → List (List Char)
  | [] => [[]]
  | c :: t =>
    if c == sep then [] :: splitOnChar sep t
    else
      match splitOnChar sep t with
      | [] => [[c]]
      | h :: r => (c :: h) :: r

/-- Split at the first occurrence of the character `sep`; `none` when `sep`
does not occur. -/
def splitOnceChar (sep : Char) : List Char → Option (List Char × List Char)
  | [] => none
  | c :: t =>
    if c == sep then some ([], t)
    else
      match splitOnceChar sep t with
      | none => none
      | some (a, b) => some (c :: a, b)

/-- Everything strictly before the first occurrence of `sep` (the whole
list when `sep` does not occur). -/
def takeUntilChar (sep : Char) : List Char → List Char
  | [] => []
  | c :: t => if c == sep then [] else c :: takeUntilChar sep t

/-- The query component of a URL as `urllib.parse.urlsplit` extracts it:
the fragment is cut off at the first `#`, and the query is everything after
the first `?` of what remains (empty when there is no `?`). -/
def urlsplitQuery (url : String) : String :=
  let noFrag := takeUntilChar '#' url.data
  match splitOnceChar '?' noFrag with
  | none => ""
  | some (_, q) => String.mk q

/-- `urllib.parse.parse_qsl` with its default options: fields are split on
`&`; a field that is empty, has no `=`, or has an empty value is dropped;
names and values are split at the first `=`.  The percent- and
plus-decoding urllib applies to names and values is not modelled; no
statement below depends on it. -/
def parse_qsl (s : String) : List (String × String) :=
  (splitOnChar '&' s.data).filterMap fun nv =>
    if nv.isEmpty then none
    else
      match splitOnceChar '=' nv with
      | none => none
      | some (n, v) => if v.isEmpty then none else some (String.mk n, String.mk v)

/-- Does `hay` start with `needle`? (character-list version). -/
def startsWithChars : List Char → List Char → Bool
  | [], _ => true
  | _ :: _, [] => false
  | a :: as, b :: bs => a == b && startsWithChars as bs

/-- Does `needle` occur contiguously inside `hay`? (character-list version). -/
def containsSubAux (needle : List Char) : List Char → Bool
  | [] => needle.isEmpty
  | c :: t => startsWithChars needle (c :: t) || containsSubAux needle t

/-- Python substring containment, `needle in hay`. -/
def containsSub (needle hay : String) : Bool :=
  containsSubAux needle.data hay.data

/-- The per-instance configuration a `NifCloudClient` carries after
`__init__`: `SERVICE_NAME`, `REGION_NAME`, `API_VERSION`, `BASE_PATH`,
`USE_SSL`. -/
structure ClientState where
  SERVICE_NAME : String
  REGION_NAME : Option String
  API_VERSION : Option String
  BASE_PATH : Option String
  USE_SSL : Bool
deriving DecidableEq, Repr

/-- The class constant `API_DOMAIN`. -/
def API_DOMAIN : String := "api.cloud.nifty.com"

/-- Python truthiness of an optional string: `None` and `""` are falsy. -/
def truthy : Option String → Bool
  | none => false
  | some s => !(s == "")

/-- `NifCloudClient._make_endpoint_url`, translated clause by clause:
protocol from `USE_SSL`; dotted service and region segments included only
when truthy; `BASE_PATH`, `API_VERSION` and the call path appended in that
order, each with a trailing slash, only when truthy. -/
def make_endpoint_url (c : ClientState) (path : Option String) : String :=
  let protocol := if c.USE_SSL then "https" else "http"
  let service := if c.SERVICE_NAME ≠ "" then c.SERVICE_NAME ++ "." else ""
  let region := if truthy c.REGION_NAME then c.REGION_NAME.getD "" ++ "." else ""
  let path_param := if truthy c.BASE_PATH then c.BASE_PATH.getD "" ++ "/" else ""
  let path_param :=
    if truthy c.API_VERSION then path_param ++ c.API_VERSION.getD "" ++ "/" else path_param
  let path_param := if truthy path then path_param ++ path.getD "" ++ "/" else path_param
  protocol ++ "://" ++ service ++ region ++ API_DOMAIN ++ "/" ++ path_param

/-- `NifCloudClient._get_signature_version`: the request body
(`request.data`), the URL whose query string urllib re-parses, and the
client's service name decide the signature version.  The query branch
returns the parsed string; the body branch returns the stored value as is
(whatever its Python type); otherwise a service name containing
`"computing"` gives `"2"` and anything else gives `"4"`. -/
def get_signature_version (data : List (String × PyVal)) (url : String)
    (service_name : String) : PyVal :=
  let params := data
  let query := parse_qsl (urlsplitQuery url)
  match dlookup query "SignatureVersion" with
  | some v => PyVal.str v
  | none =>
    match dlookup params "SignatureVersion" with
    | some v => v
    | none =>
      if containsSub "computing" service_name then PyVal.str "2" else PyVal.str "4"

/-- The four signer collaborators (`NifCloudSigV4Auth`, `NifCloudSigV2Auth`,
`NifCloudSigV1Auth`, `NifCloudSigV0Auth`). -/
inductive Signer where
  | v4
  | v2
  | v1
  | v0
deriving DecidableEq, Repr

/-- Python `==` between an arbitrary embedded value and a string literal:
an integer never equals a string. -/
def pyEqStr (v : PyVal) (s : String) : Bool :=
  match v with
  | .str t => t == s
  | .int _ => false

/-- The `if/elif/else` chain in `NifCloudClient.request` choosing the auth
class; the final `else` is the fallback to `NifCloudSigV2Auth`. -/
def select_signer (v : PyVal) : Signer :=
  if pyEqStr v "4" then .v4
  else if pyEqStr v "2" then .v2
  else if pyEqStr v "1" then .v1
  else if pyEqStr v "0" then .v0
  else .v2

/-- The error kinds the specification names.  The translation returns
`Except PyError _` from the fallible entry points so that a `raise` in the
source would appear as `Except.error`. -/
inductive PyError where
  | configurationError
  | unsupportedMethod
  | transportError
deriving DecidableEq, Repr

/-- The fully prepared request handed to the HTTP transport
(`requests.get` / `requests.post`), together with the resolved signature
version and the signer variant whose `add_auth` was invoked.  The signers
themselves are external collaborators, so signing adds no field here. -/
structure Dispatched where
  method : String
  url : String
  data : List (String × PyVal)
  headers : List (String × String)
  sigVersion : PyVal
  signer : Signer
deriving DecidableEq, Repr

/-- Boolean string order used to embed Python `sorted` on strings
(code-point lexicographic order on both sides). -/
def strLe (a b : String) : Bool := decide (a ≤ b)

/-- Python `sorted(query)`: the dict's keys in ascending string order. -/
def sortedKeys (query : List (String × PyVal)) : List String :=
  (query.map Prod.fst).mergeSort strLe

/-- `NifCloudClient.request`: for GET the query is rendered as a sorted
`key=value` string joined by `&` behind a `?` and the body is cleared; for
POST the query becomes the body and the URL gets no query string; the
signature version is resolved and the signer selected; finally the request
is dispatched by method.  A method other than GET/POST falls off the final
`if/elif` chain, so the Python function returns `None`
(`Except.ok none`): no dispatch and no error. -/
def request (c : ClientState) (method : String) (path : Option String)
    (query : List (String × PyVal)) (headers : List (String × String)) :
    Except PyError (Option Dispatched) :=
  let url_query :=
    if method == "GET" then
      "?" ++ joinAmp ((sortedKeys query).map fun key => key ++ "=" ++ pyStr (dget query key))
    else ""
  let query := if method == "GET" then [] else query
  let url := make_endpoint_url c path ++ url_query
  let sigv := get_signature_version query url c.SERVICE_NAME
  let signer := select_signer sigv
  if method == "GET" then
    Except.ok (some { method := method, url := url, data := query, headers := headers,
                      sigVersion := sigv, signer := signer })
  else if method == "POST" then
    Except.ok (some { method := method, url := url, data := query, headers := headers,
                      sigVersion := sigv, signer := signer })
  else
    Except.ok none

/-- The credential-source sequence in `NifCloudClient.__init__` for one key:
the config file sets the attribute when it holds the key; then
`os.getenv(name, current)` overrides it when the environment variable is
set (keeping the current value otherwise), or plain `os.getenv(name)` when
the file set nothing; finally an explicit argument, when not `None`,
overrides everything. -/
def resolve_key (fileVal envVal argVal : Option String) : Option String :=
  let afterFile := fileVal
  let afterEnv :=
    match afterFile with
    | some v => some (envVal.getD v)
    | none => envVal
  match argVal with
  | some a => some a
  | none => afterEnv

/-- A constructed client: the resolved credential pair and the stored
configuration. -/
structure Client where
  ACCESS_KEY_ID : Option String
  SECRET_ACCESS_KEY : Option String
  config : ClientState
deriving DecidableEq, Repr

/-- `NifCloudClient.__init__`: resolves both credential keys from the three
sources and stores the configuration.  The constructor never raises:
`botocore.credentials.Credentials` accepts `None` keys, so construction
succeeds even with no credentials at all. -/
def init (service_name : String) (region_name api_version base_path : Option String)
    (use_ssl : Bool) (access_key_id secret_access_key : Option String)
    (fileAccess fileSecret envAccess envSecret : Option String) :
    Except PyError Client :=
  Except.ok
    { ACCESS_KEY_ID := resolve_key fileAccess envAccess access_key_id
      SECRET_ACCESS_KEY := resolve_key fileSecret envSecret secret_access_key
      config := { SERVICE_NAME := service_name, REGION_NAME := region_name,
                  API_VERSION := api_version, BASE_PATH := base_path, USE_SSL := use_ssl } }

/-- Dotted host segment as the specification words it: the component
followed by a dot, included only when present and non-empty. -/
def dotSeg : Option String → String
  | none => ""
  | some s => if s = "" then "" else s ++ "."

/-- Path segment as the specification words it: the component followed by a
trailing slash, included only when present and non-empty. -/
def slashSeg : Option String → String
  | none => ""
  | some s => if s = "" then "" else s ++ "/"

/-- The endpoint formula exactly as the specification describes it, used to
compare `make_endpoint_url` against the spec sentence. -/
def endpoint_spec (c : ClientState) (path : Option String) : String :=
  (if c.USE_SSL then "https" else "http") ++ "://" ++
    dotSeg (some c.SERVICE_NAME) ++ dotSeg c.REGION_NAME ++ API_DOMAIN ++ "/" ++
    slashSeg c.BASE_PATH ++ slashSeg c.API_VERSION ++ slashSeg path

/-- A concrete client configuration used for concrete evaluations. -/
def demoClient : ClientState :=
  { SERVICE_NAME := "computing", REGION_NAME := none, API_VERSION := none,
    BASE_PATH := none, USE_SSL := true }

/-! ### Helper lemmas -/

theorem strLe_trans (a b c : String) (hab : strLe a b) (hbc : strLe b c) : strLe a c := by
  simp only [strLe, decide_eq_true_eq] at hab hbc ⊢
  exact le_trans hab hbc

theorem strLe_total (a b : String) : strLe a b || strLe b a := by
  simp only [strLe, Bool.or_eq_true, decide_eq_true_eq]
  exact le_total a b

theorem sortedKeys_pairwise (query : List (String × PyVal))
    (h : (query.map Prod.fst).Nodup) :
    (sortedKeys query).Pairwise (fun a b => a < b) := by
  have hs : (sortedKeys query).Pairwise (fun a b => strLe a b = true) :=
    List.sorted_mergeSort strLe_trans strLe_total (query.map Prod.fst)
  have hnd : (sortedKeys query).Nodup :=
    (List.mergeSort_perm (query.map Prod.fst) strLe).symm.nodup h
  refine hs.imp₂ (fun a b hle hne => ?_) hnd
  exact lt_of_le_of_ne (by simpa [strLe] using hle) hne

theorem joinAmp_decomp (l : List String) (x : String) (hx : x ∈ l) :
    ∃ p q, joinAmp l = p ++ (x ++ q) := by
  induction l with
  | nil => cases hx
  | cons a t ih =>
    cases t with
    | nil =>
      have hxa : x = a := List.mem_singleton.mp hx
      subst hxa
      exact ⟨"", "", by simp [joinAmp]⟩
    | cons b t2 =>
      rcases List.mem_cons.mp hx with hxa | hxt
      · subst hxa
        exact ⟨"", "&" ++ joinAmp (b :: t2), rfl⟩
      · obtain ⟨p, q, hpq⟩ := ih hxt
        refine ⟨a ++ "&" ++ p, q, ?_⟩
        show a ++ ("&" ++ joinAmp (b :: t2)) = a ++ "&" ++ p ++ (x ++ q)
        rw [hpq]
        simp [String.append_assoc]

theorem serviceSeg_eq (s : String) :
    (if s ≠ "" then s ++ "." else "") = dotSeg (some s) := by
  by_cases h : s = "" <;> simp [dotSeg, h]

theorem dotSeg_eq (o : Option String) :
    (if truthy o then o.getD "" ++ "." else "") = dotSeg o := by
  cases o with
  | none => rfl
  | some s => by_cases h : s = "" <;> simp [truthy, dotSeg, h]

theorem slashSeg_eq (o : Option String) :
    (if truthy o then o.getD "" ++ "/" else "") = slashSeg o := by
  cases o with
  | none => rfl
  | some s => by_cases h : s = "" <;> simp [truthy, slashSeg, h]

theorem slash_step (acc : String) (o : Option String) :
    (if truthy o then acc ++ o.getD "" ++ "/" else acc) = acc ++ slashSeg o := by
  cases o with
  | none => simp [truthy, slashSeg]
  | some s =>
    by_cases h : s = "" <;> simp [truthy, slashSeg, h, String.append_assoc]

/-! ### Claim theorems -/

/-- C1: the resolved signature version follows this order, first match
winning: a `SignatureVersion` key in the URL query string is returned
verbatim; else a `SignatureVersion` key in the body map is returned
verbatim; else a service name containing `"computing"` gives `"2"`; else
`"4"`. -/
theorem sigver_resolution_precedence
    (data : List (String × PyVal)) (url : String) (sn : String) :
    (∀ v, dlookup (parse_qsl (urlsplitQuery url)) "SignatureVersion" = some v →
        get_signature_version data url sn = PyVal.str v) ∧
    (dlookup (parse_qsl (urlsplitQuery url)) "SignatureVersion" = none →
      (∀ v, dlookup data "SignatureVersion" = some v →
          get_signature_version data url sn = v) ∧
      (dlookup data "SignatureVersion" = none →
        get_signature_version data url sn =
          if containsSub "computing" sn then PyVal.str "2" else PyVal.str "4")) := by
  refine ⟨fun v hv => ?_, fun hq => ⟨fun v hv => ?_, fun hp => ?_⟩⟩ <;>
    simp [get_signature_version, *]

/-- Concrete instance of the C1 theorem: a query-string
`SignatureVersion=1` wins over a body `SignatureVersion=4` and over the
`"computing"` default. -/
theorem sigver_resolution_precedence_witness :
    get_signature_version [("SignatureVersion", PyVal.str "4")]
      "https://computing.api.cloud.nifty.com/?SignatureVersion=1" "computing" =
      PyVal.str "1" :=
  (sigver_resolution_precedence [("SignatureVersion", PyVal.str "4")]
    "https://computing.api.cloud.nifty.com/?SignatureVersion=1" "computing").1 "1"
    (by decide)

/-- C2: a resolved version tag outside the known set selects the V2 signer,
and the pipeline never fails: GET and POST requests are always dispatched,
whatever the resolved version turns out to be. -/
theorem unknown_sigver_falls_back_to_v2 (s : String)
    (h0 : s ≠ "0") (h1 : s ≠ "1") (h2 : s ≠ "2") (h4 : s ≠ "4") :
    select_signer (PyVal.str s) = Signer.v2 ∧
    ∀ (c : ClientState) (path : Option String) (query : List (String × PyVal))
      (headers : List (String × String)),
      (∃ d, request c "GET" path query headers = Except.ok (some d)) ∧
      (∃ d, request c "POST" path query headers = Except.ok (some d)) := by
  constructor
  · simp [select_signer, pyEqStr, h0, h1, h2, h4]
  · intro c path query headers
    exact ⟨⟨_, rfl⟩, ⟨_, rfl⟩⟩

/-- Concrete instance of the C2 theorem at the unknown tag `"99"`. -/
theorem unknown_sigver_falls_back_to_v2_witness :
    select_signer (PyVal.str "99") = Signer.v2 ∧
    ∀ (c : ClientState) (path : Option String) (query : List (String × PyVal))
      (headers : List (String × String)),
      (∃ d, request c "GET" path query headers = Except.ok (some d)) ∧
      (∃ d, request c "POST" path query headers = Except.ok (some d)) :=
  unknown_sigver_falls_back_to_v2 "99" (by decide) (by decide) (by decide) (by decide)

/-- C3: a GET request clears the body and renders the query as the dict's
keys in strictly ascending string order, each `key=value` with the value
put through `str`, joined by `&`, behind a literal `?` appended to the
endpoint URL. -/
theorem get_query_sorted_rendering
    (query : List (String × PyVal)) (h : (query.map Prod.fst).Nodup)
    (c : ClientState) (path : Option String) (headers : List (String × String)) :
    ∃ d, request c "GET" path query headers = Except.ok (some d) ∧
      d.data = [] ∧
      ∃ ks : List String, ks.Perm (query.map Prod.fst) ∧
        ks.Pairwise (fun a b => a < b) ∧
        d.url = make_endpoint_url c path ++
          ("?" ++ joinAmp (ks.map fun k => k ++ "=" ++ pyStr (dget query k))) := by
  refine ⟨_, rfl, rfl, sortedKeys query, ?_, ?_, rfl⟩
  · exact List.mergeSort_perm (query.map Prod.fst) strLe
  · exact sortedKeys_pairwise query h

/-- Concrete instance of the C3 theorem at the spec example
`b ↦ 2, a ↦ 1`. -/
theorem get_query_sorted_rendering_witness :
    ∃ d, request demoClient "GET" none [("b", PyVal.str "2"), ("a", PyVal.str "1")] [] =
        Except.ok (some d) ∧
      d.data = [] ∧
      ∃ ks : List String,
        ks.Perm ([("b", PyVal.str "2"), ("a", PyVal.str "1")].map Prod.fst) ∧
        ks.Pairwise (fun a b => a < b) ∧
        d.url = make_endpoint_url demoClient none ++
          ("?" ++ joinAmp (ks.map fun k =>
            k ++ "=" ++ pyStr (dget [("b", PyVal.str "2"), ("a", PyVal.str "1")] k))) :=
  get_query_sorted_rendering [("b", PyVal.str "2"), ("a", PyVal.str "1")] (by decide)
    demoClient none []

/-- C4 counterexample: for the method `"PUT"` the pipeline completes with
the Python value `None` (`Except.ok none`); it is not rejected with
`UnsupportedMethodError`, because the source raises nothing. -/
theorem unsupported_method_returns_none_cex :
    request demoClient "PUT" none [] [] = Except.ok none ∧
    request demoClient "PUT" none [] [] ≠ Except.error PyError.unsupportedMethod := by
  have h1 : request demoClient "PUT" none [] [] = Except.ok none := rfl
  exact ⟨h1, by rw [h1]; simp⟩

/-- C4 amended: a method other than GET and POST is never dispatched, but
no error is raised either: the pipeline silently returns `None`. -/
theorem unsupported_method_no_dispatch
    (c : ClientState) (method : String) (path : Option String)
    (query : List (String × PyVal)) (headers : List (String × String))
    (hg : method ≠ "GET") (hp : method ≠ "POST") :
    request c method path query headers = Except.ok none := by
  unfold request
  simp [beq_iff_eq, hg, hp]

/-- Concrete instance of the amended C4 theorem at method `"DELETE"`. -/
theorem unsupported_method_no_dispatch_witness :
    request demoClient "DELETE" none [] [] = Except.ok none :=
  unsupported_method_no_dispatch demoClient "DELETE" none [] [] (by decide) (by decide)

/-- C5 counterexample: with no credentials from the file, the environment,
or the arguments, construction succeeds with both keys `None` — it is not
rejected with `ConfigurationError` — and the first request is dispatched
anyway. -/
theorem no_credentials_no_error_cex :
    init "computing" none none none true none none none none none none =
      Except.ok { ACCESS_KEY_ID := none, SECRET_ACCESS_KEY := none,
                  config := demoClient } ∧
    init "computing" none none none true none none none none none none ≠
      Except.error PyError.configurationError ∧
    ∃ d, request demoClient "GET" none [] [] = Except.ok (some d) := by
  have h1 : init "computing" none none none true none none none none none none =
      Except.ok { ACCESS_KEY_ID := none, SECRET_ACCESS_KEY := none,
                  config := demoClient } := rfl
  exact ⟨h1, by rw [h1]; simp, ⟨_, rfl⟩⟩

/-- C5 amended: exhausting all credential sources with nothing found is not
an error: the client is constructed with both credential keys absent and
requests still go out. -/
theorem no_credentials_client_constructed
    (service : String) (region api base : Option String) (ssl : Bool) :
    ∃ cl, init service region api base ssl none none none none none none =
        Except.ok cl ∧
      cl.ACCESS_KEY_ID = none ∧ cl.SECRET_ACCESS_KEY = none ∧
      ∀ (path : Option String) (headers : List (String × String)),
        ∃ d, request cl.config "GET" path [] headers = Except.ok (some d) :=
  ⟨_, rfl, rfl, rfl, fun _ _ => ⟨_, rfl⟩⟩

/-- C6: the endpoint URL is exactly protocol, `://`, the dotted service and
region segments (present only when non-empty), the API domain, `/`, then
base path, API version and call path each with a trailing slash only when
present; in particular service `"computing"` with every optional component
absent yields `https://computing.api.cloud.nifty.com/`. -/
theorem endpoint_url_structure :
    (∀ (c : ClientState) (path : Option String),
        make_endpoint_url c path = endpoint_spec c path) ∧
    make_endpoint_url demoClient none = "https://computing.api.cloud.nifty.com/" := by
  constructor
  · intro c path
    simp only [make_endpoint_url, endpoint_spec]
    rw [serviceSeg_eq, dotSeg_eq, slashSeg_eq, slash_step, slash_step]
    simp [String.append_assoc]
  · decide

/-- C7: for POST the query mapping passes through unchanged as the request
body and no query string is appended to the endpoint URL. -/
theorem post_query_passthrough
    (c : ClientState) (path : Option String) (query : List (String × PyVal))
    (headers : List (String × String)) :
    ∃ d, request c "POST" path query headers = Except.ok (some d) ∧
      d.data = query ∧ d.url = make_endpoint_url c path := by
  refine ⟨_, rfl, rfl, ?_⟩
  exact String.append_empty (make_endpoint_url c path)

/-- C9: a GET with an empty query map still gets a query-string suffix: the
dispatched URL is the endpoint followed by a bare `?`. -/
theorem get_empty_query_bare_question
    (c : ClientState) (path : Option String) (headers : List (String × String)) :
    ∃ d, request c "GET" path [] headers = Except.ok (some d) ∧
      d.url = make_endpoint_url c path ++ "?" := by
  refine ⟨_, rfl, ?_⟩
  show make_endpoint_url c path ++
      ("?" ++ joinAmp ((sortedKeys []).map fun key => key ++ "=" ++ pyStr (dget [] key))) =
    make_endpoint_url c path ++ "?"
  have h : sortedKeys ([] : List (String × PyVal)) = [] := by
    simp [sortedKeys]
  rw [h]
  simp [joinAmp]

/-- C10: GET query keys and values are interpolated into the URL without
any percent-encoding: the raw `key=value` chunk occurs verbatim in the
dispatched URL, whatever characters the key or value holds. -/
theorem get_query_verbatim_no_encoding
    (query : List (String × PyVal)) (k : String) (hk : k ∈ query.map Prod.fst)
    (c : ClientState) (path : Option String) (headers : List (String × String)) :
    ∃ d, request c "GET" path query headers = Except.ok (some d) ∧
      ∃ p q, d.url = p ++ ((k ++ "=" ++ pyStr (dget query k)) ++ q) := by
  have hk2 : k ∈ sortedKeys query :=
    (List.mergeSort_perm (query.map Prod.fst) strLe).mem_iff.mpr hk
  have hmem : (k ++ "=" ++ pyStr (dget query k)) ∈
      (sortedKeys query).map fun key => key ++ "=" ++ pyStr (dget query key) :=
    List.mem_map_of_mem _ hk2
  obtain ⟨p, q, hpq⟩ := joinAmp_decomp _ _ hmem
  refine ⟨_, rfl, make_endpoint_url c path ++ "?" ++ p, q, ?_⟩
  show make_endpoint_url c path ++
      ("?" ++ joinAmp ((sortedKeys query).map fun key => key ++ "=" ++ pyStr (dget query key))) =
    make_endpoint_url c path ++ "?" ++ p ++ ((k ++ "=" ++ pyStr (dget query k)) ++ q)
  rw [hpq]
  simp [String.append_assoc]

/-- Concrete instance of the C10 theorem: a key holding `&` and a value
holding `=` reach the URL verbatim. -/
theorem get_query_verbatim_no_encoding_witness :
    ∃ d, request demoClient "GET" none [("a&b", PyVal.str "c=d")] [] =
        Except.ok (some d) ∧
      ∃ p q, d.url =
        p ++ (("a&b" ++ "=" ++ pyStr (dget [("a&b", PyVal.str "c=d")] "a&b")) ++ q) :=
  get_query_verbatim_no_encoding [("a&b", PyVal.str "c=d")] "a&b" (by decide)
    demoClient none []

/-- C8: the resolved credentials follow the precedence file < environment <
explicit argument, for both the access key and the secret key: an argument
wins over both other sources, and an environment value wins over the file
value. -/
theorem credential_precedence
    (service : String) (region api base : Option String) (ssl : Bool)
    (argA argS fileA fileS envA envS : Option String) :
    ∃ cl, init service region api base ssl argA argS fileA fileS envA envS =
        Except.ok cl ∧
      cl.ACCESS_KEY_ID =
        (match argA, envA, fileA with
         | some a, _, _ => some a
         | none, some e, _ => some e
         | none, none, f => f) ∧
      cl.SECRET_ACCESS_KEY =
        (match argS, envS, fileS with
         | some a, _, _ => some a
         | none, some e, _ => some e
         | none, none, f => f) := by
  refine ⟨_, rfl, ?_, ?_⟩
  · show resolve_key fileA envA argA = _
    unfold resolve_key
    cases argA <;> cases envA <;> cases fileA <;> simp [Option.getD]
  · show resolve_key fileS envS argS = _
    unfold resolve_key
    cases argS <;> cases envS <;> cases fileS <;> simp [Option.getD]

end PyNifcloud
